import Mathlib

/-!
Verification development for the Push-To-Type repository.

This file shallowly embeds the core state machines of the program:

* the pynput-based `PTTKeybindManager` (src/core/ptt_keybind_manager.py),
* the Quartz `EventTapPTTListener` (src/core/event_tap_listener.py),
* the `UnicodeInjector` queue/worker (src/core/unicode_injector.py),
* the transcript stream reducer and session teardown of `PTTTranscriber`
  (src/main.py),

and proves the spec's claims about them.  Stateful Python code is modelled
by explicit state passing; callbacks are modelled as completing
synchronously (the sequential semantics of the event-handling paths);
OS-level side effects (CGEvent posts, clipboard writes) are modelled as
explicit output lists.  String operations are modelled on the underlying
character lists; `Char.toLower` and `Char.isWhitespace` agree with Python's
`str.lower` / `str.strip` on the ASCII inputs relevant here.
-/

namespace PushToType

/-- A callback emission of the trigger machinery: `onPress` or `onRelease`. -/
inductive Emission where
| press
| release
deriving DecidableEq, Repr

/-- Identity of a physical key, as pynput reports it to the keybind manager:
the named modifier/special keys used by `create_keybind_from_string`, a
character key (pynput `KeyCode` with a `.char` attribute), or any other key. -/
inductive PKey where
| shift_l
| shift_r
| shift
| cmdK
| ctrlK
| altK
| space
| tab
| enter
| escK
| chr (c : Char)
| other (n : Nat)
deriving DecidableEq, Repr

/-- `hasattr(current_key, 'char') and current_key.char` : only character keys
carry a `char` attribute. -/
def keyChar : PKey → Option Char
| PKey.chr c => some c
| _ => none

/-- `PTTKeybind` (ptt_keybind_manager.py lines 16-21): a required modifier
set plus an optional trigger key or character. -/
structure PTTKeybind where
  modifiers : Finset PKey
  key : Option PKey := none
  char : Option Char := none
deriving DecidableEq

/-- `PTTKeybind.matches` (ptt_keybind_manager.py lines 23-47).  For
modifier-only keybinds the source checks that all required modifiers are in
`pressed_keys` and that the current key is one of them; for keybinds with a
trigger it checks the modifiers and then the trigger key/char. -/
def PTTKeybind.matches (kb : PTTKeybind) (pressed_keys : Finset PKey) (current_key : PKey) : Bool :=
  match kb.key, kb.char with
  | none, none =>
      decide (kb.modifiers ⊆ pressed_keys) && decide (current_key ∈ kb.modifiers)
      && decide (kb.modifiers ⊆ pressed_keys)
  | _, _ =>
      decide (kb.modifiers ⊆ pressed_keys)
      && ((match kb.key with
           | some k => decide (current_key = k)
           | none => false)
          ||
          (match kb.char with
           | some c => decide (keyChar current_key = some c)
           | none => false))

/-- `PTTKeybind.is_still_held` (ptt_keybind_manager.py lines 49-56): in both
branches the source requires all modifiers to still be pressed. -/
def PTTKeybind.is_still_held (kb : PTTKeybind) (pressed_keys : Finset PKey) : Bool :=
  decide (kb.modifiers ⊆ pressed_keys)

/-- `PTTState` (ptt_keybind_manager.py lines 9-13). -/
inductive PTTState where
| idle
| pressed
| released
deriving DecidableEq, Repr

/-- Mutable state of `PTTKeybindManager` relevant to press/release handling
(ptt_keybind_manager.py lines 70-80). -/
structure MgrState where
  pressed_keys : Finset PKey
  ptt_state : PTTState
  active_trigger_keys : Finset PKey
  left_shift_pressed : Bool
  right_shift_pressed : Bool
deriving DecidableEq

/-- Initial manager state (constructor / `reset_state`). -/
def initMgr : MgrState :=
  { pressed_keys := ∅
    ptt_state := PTTState.idle
    active_trigger_keys := ∅
    left_shift_pressed := false
    right_shift_pressed := false }

/-- `_trigger_press` (ptt_keybind_manager.py lines 214-229): fires the press
callback only from `IDLE`, moving to `PRESSED`. -/
def triggerPress (s : MgrState) : MgrState × List Emission :=
  if s.ptt_state = PTTState.idle then
    ({ s with ptt_state := PTTState.pressed }, [Emission.press])
  else (s, [])

/-- `_trigger_release` (ptt_keybind_manager.py lines 231-253): fires the
release callback only from `PRESSED`; the callback thread resets the state
to `IDLE` when it completes, which the sequential model folds into the
step itself. -/
def triggerRelease (s : MgrState) : MgrState × List Emission :=
  if s.ptt_state = PTTState.pressed then
    ({ s with ptt_state := PTTState.idle, active_trigger_keys := ∅ }, [Emission.release])
  else (s, [])

/-- Shift-flag bookkeeping at the top of `_on_press`
(ptt_keybind_manager.py lines 151-155). -/
def trackShiftDown (s : MgrState) (k : PKey) : MgrState :=
  if k = PKey.shift_l ∨ k = PKey.shift then { s with left_shift_pressed := true }
  else if k = PKey.shift_r then { s with right_shift_pressed := true }
  else s

/-- The press decision of `_on_press` (ptt_keybind_manager.py lines 160-173),
run after the pressed set has been updated. -/
def pressDecision (kb : PTTKeybind) (s : MgrState) (k : PKey) : MgrState × List Emission :=
  if s.ptt_state = PTTState.idle then
    if PKey.shift_l ∈ kb.modifiers ∧ PKey.shift_r ∈ kb.modifiers then
      if s.left_shift_pressed = true ∧ s.right_shift_pressed = true then
        triggerPress { s with active_trigger_keys := {PKey.shift_l, PKey.shift_r} }
      else (s, [])
    else if kb.matches s.pressed_keys k then
      triggerPress { s with active_trigger_keys := s.pressed_keys }
    else (s, [])
  else (s, [])

/-- `_on_press` (ptt_keybind_manager.py lines 146-173): track shift flags,
add the key to the pressed set, then decide whether to trigger. -/
def onPressM (kb : PTTKeybind) (s : MgrState) (k : PKey) : MgrState × List Emission :=
  pressDecision kb
    { trackShiftDown s k with
      pressed_keys := insert k (trackShiftDown s k).pressed_keys } k

/-- Shift-flag bookkeeping at the top of `_on_release`
(ptt_keybind_manager.py lines 180-187); also returns `shift_released`. -/
def trackShiftUp (s : MgrState) (k : PKey) : MgrState × Bool :=
  if k = PKey.shift_l ∨ k = PKey.shift then ({ s with left_shift_pressed := false }, true)
  else if k = PKey.shift_r then ({ s with right_shift_pressed := false }, true)
  else (s, false)

/-- Pressed-set removal of `_on_release` (ptt_keybind_manager.py lines
189-197): the released key is discarded, and generic/specific shift aliases
are discarded together. -/
def removeReleased (p : Finset PKey) (k : PKey) : Finset PKey :=
  let p1 := p.erase k
  if k = PKey.shift_l ∨ k = PKey.shift_r then p1.erase PKey.shift
  else if k = PKey.shift then (p1.erase PKey.shift_l).erase PKey.shift_r
  else p1

/-- The release decision of `_on_release` (ptt_keybind_manager.py lines
199-212), run after flags and pressed set have been updated. -/
def releaseDecision (kb : PTTKeybind) (s : MgrState) (k : PKey) (shift_released : Bool) :
    MgrState × List Emission :=
  if s.ptt_state = PTTState.pressed then
    if PKey.shift_l ∈ kb.modifiers ∧ PKey.shift_r ∈ kb.modifiers then
      if shift_released = true ∧ (s.left_shift_pressed = false ∨ s.right_shift_pressed = false) then
        triggerRelease s
      else (s, [])
    else if k ∈ s.active_trigger_keys then triggerRelease s
    else if kb.is_still_held s.pressed_keys = false then triggerRelease s
    else (s, [])
  else (s, [])

/-- `_on_release` (ptt_keybind_manager.py lines 175-212): track shift
flags, remove the key from the pressed set, then decide whether to release. -/
def onReleaseM (kb : PTTKeybind) (s : MgrState) (k : PKey) : MgrState × List Emission :=
  releaseDecision kb
    { (trackShiftUp s k).1 with
      pressed_keys := removeReleased (trackShiftUp s k).1.pressed_keys k } k
    (trackShiftUp s k).2

/-- A raw key transition delivered by the OS listener. -/
inductive KEvent where
| down (k : PKey)
| up (k : PKey)
deriving DecidableEq, Repr

/-- One key transition processed by the keybind manager. -/
def mgrStep (kb : PTTKeybind) (s : MgrState) : KEvent → MgrState × List Emission
| KEvent.down k => onPressM kb s k
| KEvent.up k => onReleaseM kb s k

/-- Process a sequence of key transitions, accumulating callback emissions
in order. -/
def mgrRun (kb : PTTKeybind) (s : MgrState) : List KEvent → MgrState × List Emission
| [] => (s, [])
| e :: es =>
  let p := mgrStep kb s e
  let q := mgrRun kb p.1 es
  (q.1, p.2 ++ q.2)

/-- State of `EventTapPTTListener` (event_tap_listener.py lines 49-54): its
`_pressed` set only ever holds `"shift_l"` / `"shift_r"` (the callback
recomputes exactly these two keys from the authoritative OS query, lines
89-98), so it is represented by the two membership booleans, plus the
`_active` trigger flag. -/
structure ETState where
  shiftL : Bool
  shiftR : Bool
  active : Bool
deriving DecidableEq, Repr

/-- Initial event-tap listener state. -/
def initET : ETState := { shiftL := false, shiftR := false, active := false }

/-- `_matches_ptt` (event_tap_listener.py lines 58-61):
`self._pressed == {"shift_l", "shift_r"}`, an exact set equality, which over
the two tracked keys means both are down. -/
def etMatches (requireLR : Bool) (s : ETState) : Bool :=
  if requireLR then s.shiftL && s.shiftR else false

/-- `_handle_press` (event_tap_listener.py lines 63-69). -/
def etHandlePress (requireLR : Bool) (s : ETState) : ETState × List Emission :=
  if s.active = false ∧ etMatches requireLR s = true then
    ({ s with active := true }, [Emission.press])
  else (s, [])

/-- `_handle_release` (event_tap_listener.py lines 71-77). -/
def etHandleRelease (requireLR : Bool) (s : ETState) : ETState × List Emission :=
  if s.active = true ∧ etMatches requireLR s = false then
    ({ s with active := false }, [Emission.release])
  else (s, [])

/-- `_event_callback` (event_tap_listener.py lines 79-105) for one key
transition: the authoritative `CGEventSourceKeyState` answers for the left
and right shift keys are `left` and `right`; the tracked set is recomputed
from them, then `_handle_press` and `_handle_release` run in that order. -/
def etStep (requireLR : Bool) (s : ETState) (left right : Bool) : ETState × List Emission :=
  let s1 : ETState := { s with shiftL := left, shiftR := right }
  let p := etHandlePress requireLR s1
  let q := etHandleRelease requireLR p.1
  (q.1, p.2 ++ q.2)

/-- Process a sequence of key transitions through the event-tap listener,
each transition carrying the authoritative left/right shift key state. -/
def etRun (requireLR : Bool) (s : ETState) : List (Bool × Bool) → ETState × List Emission
| [] => (s, [])
| e :: es =>
  let p := etStep requireLR s e.1 e.2
  let q := etRun requireLR p.1 es
  (q.1, p.2 ++ q.2)

/-- The default binding: both shift keys
(`PTTKeybind(modifiers={shift_l, shift_r})`, main.py lines 659-662). -/
def kbBothShifts : PTTKeybind := { modifiers := {PKey.shift_l, PKey.shift_r} }

/-! ### UnicodeInjector (src/core/unicode_injector.py) -/

/-- Injection mode (unicode_injector.py line 27). -/
inductive InjMode where
| keystroke
| paste
deriving DecidableEq, Repr

/-- Mutable state of `UnicodeInjector` (unicode_injector.py lines 36-56).
Queue items are `(generation, text)` pairs; the per-item `interrupt_check`
callable is omitted (it is only consulted inside the keystroke-mode
character loop and no modelled behavior depends on it), as are the
wall-clock fields `typing_delay` / `_last_inject_time` and the transient
`_injecting` event. -/
structure InjectorState where
  generation : Nat
  accept_new_work : Bool
  queue : List (Nat × String)
  stop_typing : Bool
  worker_stop : Bool
  mode : InjMode
deriving DecidableEq, Repr

namespace UnicodeInjector

/-- A freshly constructed injector (unicode_injector.py lines 24-56). -/
def init (mode : InjMode) : InjectorState :=
  { generation := 0
    accept_new_work := true
    queue := []
    stop_typing := false
    worker_stop := false
    mode := mode }

/-- `inject_text` (unicode_injector.py lines 58-73): empty text returns at
once; otherwise `stop_typing` is cleared, the gate is consulted under the
lock, and the text is enqueued tagged with the current generation.
(The worker-thread spawn at lines 72-73 has no state of its own here.) -/
def inject_text (s : InjectorState) (text : String) : InjectorState :=
  if text = "" then s
  else if s.accept_new_work = false then { s with stop_typing := false }
  else { s with stop_typing := false, queue := s.queue ++ [(s.generation, text)] }

/-- `_paste_text` (unicode_injector.py lines 161-221): after an empty-text
guard and a gate/generation re-check, the whole chunk is pasted as one
OS-level event; the clipboard save/restore around it is folded into that
single observable injection. -/
def paste_text (s : InjectorState) (text : String) (item_gen : Nat) :
    InjectorState × List String :=
  if text = "" then (s, [])
  else if s.accept_new_work = false ∨ item_gen ≠ s.generation then (s, [])
  else (s, [text])

/-- The keystroke-mode character loop (unicode_injector.py lines 107-118):
each character re-checks `stop_typing`, `worker_stop`, the generation and
the gate before injecting.  In the sequential model those conditions are
constant across the loop, so either every character of the chunk is
injected or none is. -/
def typeChars (s : InjectorState) (text : String) (item_gen : Nat) : List String :=
  if s.stop_typing = true ∨ s.worker_stop = true ∨ item_gen ≠ s.generation
     ∨ s.accept_new_work = false then []
  else text.data.map (fun c => String.mk [c])

/-- The worker body for one dequeued item (unicode_injector.py lines
91-119): a stale generation or a closed gate drops the item before any OS
side effect; otherwise the chunk is pasted or typed per character.  The
returned list holds the OS-level injections performed. -/
def workerProcessItem (s : InjectorState) (item : Nat × String) :
    InjectorState × List String :=
  if item.1 ≠ s.generation ∨ s.accept_new_work = false then (s, [])
  else
    match s.mode with
    | InjMode.paste => paste_text s item.2 item.1
    | InjMode.keystroke => (s, typeChars s item.2 item.1)

/-- `stop` (unicode_injector.py lines 223-242): set both stop events,
optionally bump the generation, and drain the queue; the worker join has no
state effect here. -/
def stop (s : InjectorState) (invalidate_generation : Bool) : InjectorState :=
  let s1 := { s with stop_typing := true, worker_stop := true }
  let s2 := if invalidate_generation then { s1 with generation := s1.generation + 1 } else s1
  { s2 with queue := [] }

/-- `disable` (unicode_injector.py lines 244-250): close the gate, bump the
generation, then `stop(invalidate_generation=False)`. -/
def disable (s : InjectorState) : InjectorState :=
  stop { s with accept_new_work := false, generation := s.generation + 1 } false

/-- `enable` (unicode_injector.py lines 252-255). -/
def enable (s : InjectorState) : InjectorState :=
  { s with accept_new_work := true }

/-- `flush_and_clear` (unicode_injector.py lines 257-297): close the gate
and bump the generation first, signal all stop conditions, and drain the
queue completely; the bounded in-flight and drain waits are pure delays
with no state effect. -/
def flush_and_clear (s : InjectorState) : InjectorState :=
  { s with accept_new_work := false
           generation := s.generation + 1
           stop_typing := true
           worker_stop := true
           queue := [] }

end UnicodeInjector

/-! ### Session teardown (src/main.py `stop_transcription`) -/

/-- The externally observable teardown steps of
`PTTTranscriber.stop_transcription` (main.py lines 492-579), in program
order. -/
inductive TeardownAction where
| setSuppress (b : Bool)
| flushAndClear
| signalStopAudio
| joinAudioThread
| cleanupAudio
| quietWait
| sendTerminate
| closeTransport
| joinWsThread
| injectorStop
| resetCounters
deriving DecidableEq, Repr

/-- The ordered teardown actions performed by `stop_transcription`
(main.py lines 492-579): the suppress flag is set first; on the suppress
path the injector is flushed and cleared immediately (lines 499-509) and
the quiet-period wait (lines 521-530) is skipped; then audio is stopped,
the transport is terminated and closed, the injector worker is stopped and
per-session counters are reset. -/
def stopTranscriptionActions (suppress_output : Bool) : List TeardownAction :=
  [TeardownAction.setSuppress suppress_output]
  ++ (if suppress_output then [TeardownAction.flushAndClear] else [])
  ++ [TeardownAction.signalStopAudio, TeardownAction.joinAudioThread, TeardownAction.cleanupAudio]
  ++ (if suppress_output then [] else [TeardownAction.quietWait])
  ++ [TeardownAction.sendTerminate, TeardownAction.closeTransport, TeardownAction.joinWsThread,
      TeardownAction.injectorStop, TeardownAction.resetCounters]

/-! ### Transcript stream reducer (src/main.py `_on_ws_message`, Turn branch) -/

/-- Unicode general category `P*` membership, restricted to the ASCII range
that the modelled tokens draw from (`unicodedata.category(ch).startswith('P')`,
main.py line 202). -/
def isPunct (c : Char) : Bool :=
  c ∈ ['!', '"', '#', '%', '&', '\x27', '(', ')', '*', ',', '-', '.', '/',
       ':', ';', '?', '@', '[', '\\', ']', '_', '\x7b', '\x7d']

/-- Python `str.lower()` on the character list (on ASCII it agrees with
`Char.toLower`). -/
def lowerStr (s : String) : String := String.mk (s.data.map Char.toLower)

/-- Python `str.strip()`: drop leading and trailing whitespace. -/
def trimStr (s : String) : String :=
  String.mk (((s.data.dropWhile Char.isWhitespace).reverse.dropWhile Char.isWhitespace).reverse)

/-- Python `str.endswith(suffix)` on the character lists. -/
def endsWithStr (s suffix : String) : Bool :=
  suffix.data.isSuffixOf s.data

/-- Python `str.endswith(tuple(vals))`: any of the suffixes matches. -/
def endsWithAny (s : String) (vals : List String) : Bool :=
  vals.any (fun v => endsWithStr s v)

/-- Python `len` on a string: the number of code points. -/
def strLen (s : String) : Nat := s.data.length

/-- The replacement tables of `PTTTranscriber` (main.py lines 125-138):
word map with keys already lowercased, joiner token set, and phrase map
with keys already split into lowercased token tuples.  Python dicts are
modelled as association lists with unique keys, looked up front-to-back. -/
structure ReducerConfig where
  word_replacements : List (String × String)
  joiner_values : List String
  phrase_replacements : List (List String × String)
deriving DecidableEq, Repr

/-- `tok in self.joiner_values`. -/
def isJoiner (cfg : ReducerConfig) (tok : String) : Bool :=
  cfg.joiner_values.contains tok

/-- `_clean_word_token` (main.py lines 193-203): lowercase and strip
punctuation, except that tokens whose stripped lowercase form is a word-map
key are kept verbatim (lowercased). -/
def cleanWordToken (cfg : ReducerConfig) (token : String) : String :=
  if token = "" then ""
  else
    let t := lowerStr (trimStr token)
    if (cfg.word_replacements.lookup t).isSome then t
    else lowerStr (trimStr (String.mk (token.data.filter (fun c => !isPunct c))))

/-- Stable insertion of a phrase pattern into a list sorted by descending
key length (`sorted(keys, key=lambda t: -len(t))`, main.py line 209). -/
def insertByLenDesc (p : List String × String) :
    List (List String × String) → List (List String × String)
| [] => [p]
| q :: qs =>
  if q.1.length ≤ p.1.length then p :: q :: qs
  else q :: insertByLenDesc p qs

/-- Sort phrase patterns by descending key length, stably. -/
def sortByLenDesc (ps : List (List String × String)) : List (List String × String) :=
  ps.foldr insertByLenDesc []

/-- The inner pattern loop of `_apply_phrase_replacements` (main.py lines
213-223): the first pattern that is non-empty and matches the window at the
current position wins, returning its replacement and consumed length. -/
def findPhrase (pats : List (List String × String)) (ts : List String) :
    Option (String × Nat) :=
  match pats with
  | [] => none
  | (pat, val) :: rest =>
    if pat.length ≠ 0 ∧ pat.isPrefixOf ts = true then some (val, pat.length)
    else findPhrase rest ts

/-- The scanning loop of `_apply_phrase_replacements` (main.py lines
210-227), written with explicit fuel so it is structural; each iteration
consumes at least one token, so `fuel = tokens.length` reproduces the
source loop exactly. -/
def phraseScan (pats : List (List String × String)) : Nat → List String → List String
| 0, ts => ts
| _ + 1, [] => []
| fuel + 1, t :: rest =>
  match findPhrase pats (t :: rest) with
  | some (val, n) => val :: phraseScan pats fuel (List.drop (n - 1) rest)
  | none => t :: phraseScan pats fuel rest

/-- `_apply_phrase_replacements` (main.py lines 205-227). -/
def applyPhraseReplacements (cfg : ReducerConfig) (tokens : List String) : List String :=
  if cfg.phrase_replacements = [] then tokens
  else phraseScan (sortByLenDesc cfg.phrase_replacements) tokens.length tokens

/-- One word of a Turn event (`{text, word_is_final}`). -/
structure Word where
  text : String
  word_is_final : Bool
deriving DecidableEq, Repr

/-- A `Turn` message as consumed by `_on_ws_message` (main.py lines
241-308). -/
structure TurnEvent where
  end_of_turn : Bool
  turn_is_formatted : Bool
  turn_order : Option Nat
  words : List Word
deriving DecidableEq, Repr

/-- Per-session mutable turn state of `PTTTranscriber` (main.py lines
156-167). -/
structure TurnState where
  committed_word_count : Nat
  current_turn_order : Option Nat
  session_text : String
  last_output_chunk : String
  total_characters_typed : Nat
  turn_count : Nat
  suppress_output : Bool
deriving DecidableEq, Repr

/-- Fresh turn state (main.py lines 156-167). -/
def initTurn : TurnState :=
  { committed_word_count := 0
    current_turn_order := none
    session_text := ""
    last_output_chunk := ""
    total_characters_typed := 0
    turn_count := 0
    suppress_output := false }

/-- Turn adoption (main.py lines 244-247): an event carrying a turn order
different from the tracked one resets `committed_word_count` and adopts the
new order. -/
def adoptTurn (s : TurnState) (e : TurnEvent) : TurnState :=
  match e.turn_order with
  | none => s
  | some t =>
    if some t ≠ s.current_turn_order then
      { s with current_turn_order := some t, committed_word_count := 0 }
    else s

/-- The word-commit scan (main.py lines 252-268) applied to
`words[committed_word_count:]`: stop at the first non-final word; clean
each final word, apply the word map, and let bare joiner punctuation
through; return the collected tokens and how many words were scanned. -/
def scanWords (cfg : ReducerConfig) : List Word → List String × Nat
| [] => ([], 0)
| w :: rest =>
  if w.word_is_final = false then ([], 0)
  else
    let raw := trimStr w.text
    let cleaned := cleanWordToken cfg raw
    let tok? : Option String :=
      if cleaned ≠ "" then
        let token := (cfg.word_replacements.lookup cleaned).getD cleaned
        if token ≠ "" then some token else none
      else
        if raw ≠ "" ∧ isJoiner cfg raw = true then some raw else none
    let p := scanWords cfg rest
    (match tok? with
     | some t => t :: p.1
     | none => p.1,
     p.2 + 1)

/-- The joiner-aware continuation of the delta string after the first token
(main.py lines 282-287): one space between two adjacent tokens of which
neither is a joiner, no space otherwise. -/
def buildRest (cfg : ReducerConfig) (prev : String) : List String → String
| [] => ""
| t :: rest =>
  (if isJoiner cfg prev = false ∧ isJoiner cfg t = false then " " else "")
  ++ t ++ buildRest cfg t rest

/-- The delta-string construction (main.py lines 274-288): a leading space
only if the first token is not a joiner and `session_text` is non-empty and
ends neither in `" "` nor in a joiner token, then the tokens separated by
the joiner-aware spaces. -/
def buildDelta (cfg : ReducerConfig) (session_text : String) : List String → String
| [] => ""
| t :: rest =>
  (if isJoiner cfg t = false ∧ session_text ≠ "" ∧ endsWithStr session_text " " = false
      ∧ endsWithAny session_text cfg.joiner_values = false
   then " " else "")
  ++ t ++ buildRest cfg t rest

/-- The word-processing block of `_on_ws_message` (main.py lines 249-296):
commit newly final words, apply phrase replacements, build the delta,
deduplicate, and otherwise emit.  The returned list holds the texts
actually enqueued by `UnicodeInjector.inject_text`, whose first guard
drops empty strings (unicode_injector.py lines 62-63). -/
def wordsPhase (cfg : ReducerConfig) (s : TurnState) (e : TurnEvent) :
    TurnState × List String :=
  if e.words ≠ [] ∧ e.turn_is_formatted = false ∧ s.suppress_output = false then
    let scanned := scanWords cfg (e.words.drop s.committed_word_count)
    if 0 < scanned.2 then
      let s1 := { s with committed_word_count := s.committed_word_count + scanned.2 }
      if scanned.1 ≠ [] then
        let toks := applyPhraseReplacements cfg scanned.1
        let to_type := buildDelta cfg s1.session_text toks
        if to_type = s1.last_output_chunk
           ∨ (to_type ≠ "" ∧ endsWithStr s1.session_text to_type = true) then
          (s1, [])
        else
          ({ s1 with session_text := s1.session_text ++ to_type
                     total_characters_typed := s1.total_characters_typed + strLen to_type
                     last_output_chunk := to_type },
           if to_type = "" then [] else [to_type])
      else (s1, [])
    else (s, [])
  else (s, [])

/-- The end-of-turn close-out (main.py lines 297-308): on an unformatted
final message (output not suppressed), inject a trailing space if missing,
reset the committed count and tracked turn order, bump the turn counter and
clear the last chunk. -/
def endPhase (s : TurnState) (e : TurnEvent) : TurnState × List String :=
  if e.end_of_turn = true ∧ e.turn_is_formatted = false ∧ s.suppress_output = false then
    let p :=
      if s.session_text ≠ "" ∧ endsWithStr s.session_text " " = false then
        ({ s with session_text := s.session_text ++ " "
                  total_characters_typed := s.total_characters_typed + 1 }, [" "])
      else (s, ([] : List String))
    ({ p.1 with committed_word_count := 0
                current_turn_order := none
                turn_count := p.1.turn_count + 1
                last_output_chunk := "" },
     p.2)
  else (s, [])

/-- One `Turn` message processed by `_on_ws_message` (main.py lines
241-308): turn adoption, then the word-processing block, then the
end-of-turn close-out; the output lists the texts enqueued at the injector,
in order. -/
def turnStep (cfg : ReducerConfig) (s : TurnState) (e : TurnEvent) :
    TurnState × List String :=
  let s0 := adoptTurn s e
  let p1 := wordsPhase cfg s0 e
  let p2 := endPhase p1.1 e
  (p2.1, p1.2 ++ p2.2)

/-! ### Auxiliary definitions for the claims -/

/-- Strict alternation of an emission trace: `isAltFrom b tr` holds when,
expecting a press next iff `b`, the trace alternates press/release. -/
def isAltFrom : Bool → List Emission → Bool
| _, [] => true
| b, Emission.press :: rest => b && isAltFrom false rest
| b, Emission.release :: rest => !b && isAltFrom true rest

/-- The manager state is expecting a press (it is `IDLE`). -/
def expectPress : PTTState → Bool
| PTTState.idle => true
| _ => false

/-- The delta string computed by the word-processing block (main.py lines
272-288) when that block reaches the delta construction, and `none` when
the block exits earlier; `wordsPhase` emits or suppresses exactly this
string. -/
def computedDelta (cfg : ReducerConfig) (s : TurnState) (e : TurnEvent) : Option String :=
  if e.words ≠ [] ∧ e.turn_is_formatted = false ∧ s.suppress_output = false then
    if 0 < (scanWords cfg (e.words.drop s.committed_word_count)).2 then
      if (scanWords cfg (e.words.drop s.committed_word_count)).1 ≠ [] then
        some (buildDelta cfg s.session_text
          (applyPhraseReplacements cfg (scanWords cfg (e.words.drop s.committed_word_count)).1))
      else none
    else none
  else none

/-- Modelled from the spec: the separator the spec prescribes between two
adjacent tokens — one space iff neither is a joiner. -/
def specSep (cfg : ReducerConfig) (a b : String) : String :=
  if isJoiner cfg a = false ∧ isJoiner cfg b = false then " " else ""

/-- Modelled from the spec: tokens concatenated pairwise with the
spec-prescribed separators. -/
def specConcat (cfg : ReducerConfig) : List String → String
| [] => ""
| [t] => t
| a :: b :: rest => a ++ specSep cfg a b ++ specConcat cfg (b :: rest)

/-- Modelled from the spec (as amended): the leading space before the first
token — present iff the first token is not a joiner and the session text is
non-empty and ends neither in a space character nor in a joiner token. -/
def specLead (cfg : ReducerConfig) (session : String) : List String → String
| [] => ""
| t :: _ =>
  if isJoiner cfg t = false ∧ session ≠ "" ∧ endsWithStr session " " = false
     ∧ endsWithAny session cfg.joiner_values = false
  then " " else ""

/-- Modelled from the spec (as amended): the full delta string as the
amended claim C6 describes it. -/
def specAmendedDelta (cfg : ReducerConfig) (session : String) (toks : List String) : String :=
  specLead cfg session toks ++ specConcat cfg toks

/-- The session text ends in a whitespace character (the condition the
unamended claim C6 uses). -/
def endsInWhitespace (s : String) : Bool :=
  match s.data.getLast? with
  | some c => c.isWhitespace
  | none => false

/-! ### Concrete fixtures used in the claim theorems and witnesses -/

/-- Key transitions for claim C1: a non-binding key is held, then both
bound shifts go down. -/
def c1evs : List KEvent :=
  [KEvent.down (PKey.chr 'a'), KEvent.down PKey.shift_l, KEvent.down PKey.shift_r]

/-- The configuration claim C2 specifies: word map `{"slash": "/"}` and
phrase map `{("forward","slash"): "/"}`. -/
def c2cfg : ReducerConfig :=
  { word_replacements := [("slash", "/")]
    joiner_values := []
    phrase_replacements := [(["forward", "slash"], "/")] }

/-- The turn-update event claim C2 specifies: newly final words
`["forward", "slash"]`. -/
def c2event : TurnEvent :=
  { end_of_turn := false
    turn_is_formatted := false
    turn_order := some 1
    words := [{ text := "forward", word_is_final := true },
              { text := "slash", word_is_final := true }] }

/-- An empty replacement configuration. -/
def emptyCfg : ReducerConfig :=
  { word_replacements := [], joiner_values := [], phrase_replacements := [] }

/-- An unformatted end-of-turn event finalising one word, used for the C7
counterexample (a retransmission of this event recomputes the same delta). -/
def c7event : TurnEvent :=
  { end_of_turn := true
    turn_is_formatted := false
    turn_order := some 1
    words := [{ text := "hello", word_is_final := true }] }

/-- A configuration with `/` registered as a joiner, as in claim C6. -/
def c6cfg : ReducerConfig :=
  { word_replacements := [], joiner_values := ["/"], phrase_replacements := [] }

/-- A non-final turn event used to exercise the reducer monotonicity claim. -/
def c5event : TurnEvent :=
  { end_of_turn := false
    turn_is_formatted := false
    turn_order := none
    words := [{ text := "hello", word_is_final := true }] }

/-- An injector with three pending items enqueued at the current
generation and the worker not yet started on any of them. -/
def injThreePending : InjectorState :=
  { generation := 5
    accept_new_work := true
    queue := [(5, "alpha"), (5, "beta"), (5, "gamma")]
    stop_typing := false
    worker_stop := false
    mode := InjMode.paste }

/-- An injector whose accept-gate is closed. -/
def injGateClosed : InjectorState :=
  { generation := 3
    accept_new_work := false
    queue := [(2, "left over")]
    stop_typing := true
    worker_stop := false
    mode := InjMode.paste }

/-- A manager state with the left shift held, about to receive the right
shift, used in the C4 witness. -/
def mgrLeftHeld : MgrState :=
  { pressed_keys := {PKey.shift_l}
    ptt_state := PTTState.idle
    active_trigger_keys := ∅
    left_shift_pressed := true
    right_shift_pressed := false }

/-- A manager state mid-press with both shifts held, used in the C9
witness. -/
def mgrBothHeld : MgrState :=
  { pressed_keys := {PKey.shift_l, PKey.shift_r}
    ptt_state := PTTState.pressed
    active_trigger_keys := {PKey.shift_l, PKey.shift_r}
    left_shift_pressed := true
    right_shift_pressed := true }

/-- A turn state whose last emitted chunk is `"hello"`, used in the C7
witness. -/
def c7state : TurnState :=
  { committed_word_count := 0
    current_turn_order := some 1
    session_text := ""
    last_output_chunk := "hello"
    total_characters_typed := 5
    turn_count := 0
    suppress_output := false }

/-- A retransmission of a non-final `"hello"` update, used in the C7
witness. -/
def c7eventB : TurnEvent :=
  { end_of_turn := false
    turn_is_formatted := false
    turn_order := some 1
    words := [{ text := "hello", word_is_final := true }] }

/-- A modifier-only binding over cmd+ctrl, used to exhibit the containment
behavior of `PTTKeybind.matches` outside the both-shift special path. -/
def kbCmdCtrl : PTTKeybind := { modifiers := {PKey.cmdK, PKey.ctrlK} }

/-! ### Helper lemmas: the trigger state machines -/

theorem trackShiftDown_ptt (s : MgrState) (k : PKey) :
    (trackShiftDown s k).ptt_state = s.ptt_state := by
  unfold trackShiftDown
  split_ifs <;> rfl

theorem trackShiftUp_ptt (s : MgrState) (k : PKey) :
    (trackShiftUp s k).1.ptt_state = s.ptt_state := by
  unfold trackShiftUp
  split_ifs <;> rfl

theorem pressDecision_cases (kb : PTTKeybind) (s : MgrState) (k : PKey) :
    ((pressDecision kb s k).2 = [] ∧ (pressDecision kb s k).1.ptt_state = s.ptt_state)
    ∨ ((pressDecision kb s k).2 = [Emission.press] ∧ s.ptt_state = PTTState.idle
        ∧ (pressDecision kb s k).1.ptt_state = PTTState.pressed) := by
  unfold pressDecision triggerPress
  split_ifs <;> simp_all

theorem releaseDecision_cases (kb : PTTKeybind) (s : MgrState) (k : PKey) (sr : Bool) :
    ((releaseDecision kb s k sr).2 = [] ∧ (releaseDecision kb s k sr).1.ptt_state = s.ptt_state)
    ∨ ((releaseDecision kb s k sr).2 = [Emission.release] ∧ s.ptt_state = PTTState.pressed
        ∧ (releaseDecision kb s k sr).1.ptt_state = PTTState.idle) := by
  unfold releaseDecision triggerRelease
  split_ifs <;> simp_all

theorem mgrStep_cases (kb : PTTKeybind) (s : MgrState) (e : KEvent) :
    ((mgrStep kb s e).2 = [] ∧ (mgrStep kb s e).1.ptt_state = s.ptt_state)
    ∨ ((mgrStep kb s e).2 = [Emission.press] ∧ s.ptt_state = PTTState.idle
        ∧ (mgrStep kb s e).1.ptt_state = PTTState.pressed)
    ∨ ((mgrStep kb s e).2 = [Emission.release] ∧ s.ptt_state = PTTState.pressed
        ∧ (mgrStep kb s e).1.ptt_state = PTTState.idle) := by
  cases e with
  | down k =>
    have hX : ({ trackShiftDown s k with
        pressed_keys := insert k (trackShiftDown s k).pressed_keys } : MgrState).ptt_state
        = s.ptt_state := trackShiftDown_ptt s k
    rcases pressDecision_cases kb
      { trackShiftDown s k with
        pressed_keys := insert k (trackShiftDown s k).pressed_keys } k with
      ⟨h1, h2⟩ | ⟨h1, h2, h3⟩
    · rw [hX] at h2
      exact Or.inl ⟨h1, h2⟩
    · rw [hX] at h2
      exact Or.inr (Or.inl ⟨h1, h2, h3⟩)
  | up k =>
    have hX : ({ (trackShiftUp s k).1 with
        pressed_keys := removeReleased (trackShiftUp s k).1.pressed_keys k } : MgrState).ptt_state
        = s.ptt_state := trackShiftUp_ptt s k
    rcases releaseDecision_cases kb
      { (trackShiftUp s k).1 with
        pressed_keys := removeReleased (trackShiftUp s k).1.pressed_keys k } k
      (trackShiftUp s k).2 with
      ⟨h1, h2⟩ | ⟨h1, h2, h3⟩
    · rw [hX] at h2
      exact Or.inl ⟨h1, h2⟩
    · rw [hX] at h2
      exact Or.inr (Or.inr ⟨h1, h2, h3⟩)

theorem isAltFrom_mgrStep (kb : PTTKeybind) (s : MgrState) (e : KEvent) (rest : List Emission) :
    isAltFrom (expectPress s.ptt_state) ((mgrStep kb s e).2 ++ rest)
      = isAltFrom (expectPress (mgrStep kb s e).1.ptt_state) rest := by
  rcases mgrStep_cases kb s e with ⟨h1, h2⟩ | ⟨h1, h2, h3⟩ | ⟨h1, h2, h3⟩
  · simp [h1, h2]
  · simp [h1, h2, h3, isAltFrom, expectPress]
  · simp [h1, h2, h3, isAltFrom, expectPress]

theorem mgrRun_alt (kb : PTTKeybind) :
    ∀ (es : List KEvent) (s : MgrState),
      isAltFrom (expectPress s.ptt_state) (mgrRun kb s es).2 = true := by
  intro es
  induction es with
  | nil => intro s; rfl
  | cons e es ih =>
    intro s
    show isAltFrom (expectPress s.ptt_state)
      ((mgrStep kb s e).2 ++ (mgrRun kb (mgrStep kb s e).1 es).2) = true
    rw [isAltFrom_mgrStep]
    exact ih _

theorem etStep_cases (rl : Bool) (s : ETState) (l r : Bool) :
    ((etStep rl s l r).2 = [] ∧ (etStep rl s l r).1.active = s.active)
    ∨ ((etStep rl s l r).2 = [Emission.press] ∧ s.active = false
        ∧ (etStep rl s l r).1.active = true)
    ∨ ((etStep rl s l r).2 = [Emission.release] ∧ s.active = true
        ∧ (etStep rl s l r).1.active = false) := by
  rcases s with ⟨sl, sr, a⟩
  cases rl <;> cases sl <;> cases sr <;> cases a <;> cases l <;> cases r <;> decide

theorem isAltFrom_etStep (rl : Bool) (s : ETState) (l r : Bool) (rest : List Emission) :
    isAltFrom (!s.active) ((etStep rl s l r).2 ++ rest)
      = isAltFrom (!(etStep rl s l r).1.active) rest := by
  rcases etStep_cases rl s l r with ⟨h1, h2⟩ | ⟨h1, h2, h3⟩ | ⟨h1, h2, h3⟩
  · simp [h1, h2]
  · simp [h1, h2, h3, isAltFrom]
  · simp [h1, h2, h3, isAltFrom]

theorem etRun_alt (rl : Bool) :
    ∀ (es : List (Bool × Bool)) (s : ETState),
      isAltFrom (!s.active) (etRun rl s es).2 = true := by
  intro es
  induction es with
  | nil => intro s; rfl
  | cons e es ih =>
    intro s
    show isAltFrom (!s.active)
      ((etStep rl s e.1 e.2).2 ++ (etRun rl (etStep rl s e.1 e.2).1 es).2) = true
    rw [isAltFrom_etStep]
    exact ih _

/-! ### Claim C1 -/

/-- C1 (refuted, code bug): with the default both-shift binding, the
keybind manager fires `onPress` on the key-down of the last bound key even
though a key outside the binding (`'a'`) is still held: after the sequence
`down 'a'; down shift_l; down shift_r` the press has fired while the
tracked pressed set `{'a', shift_l, shift_r}` is a strict superset of the
binding's modifier set — so matching is containment, not the exact set
equality the claim (and the source's own comment at
ptt_keybind_manager.py line 25) requires.  The third conjunct shows the
same containment behavior of `PTTKeybind.matches` itself on a
non-shift modifier-only binding. -/
theorem claim1_superset_press_fires :
    (mgrRun kbBothShifts initMgr c1evs).2 = [Emission.press]
    ∧ (mgrRun kbBothShifts initMgr c1evs).1.pressed_keys
        = {PKey.chr 'a', PKey.shift_l, PKey.shift_r}
    ∧ kbBothShifts.modifiers ⊂ (mgrRun kbBothShifts initMgr c1evs).1.pressed_keys
    ∧ PTTKeybind.matches kbCmdCtrl {PKey.cmdK, PKey.ctrlK, PKey.chr 'a'} PKey.ctrlK = true := by
  decide

/-! ### Claim C4 -/

/-- C4: for every sequence of key transitions, both trigger monitors emit
strictly alternating `onPress`/`onRelease` traces starting with `onPress`
from their initial states; a press is emitted only on an Idle-to-Pressed
step and a release only on a Pressed-to-Idle step, so there is at most one
live pressed interval and never two presses without an intervening
release. -/
theorem claim4_press_release_alternation :
    (∀ (kb : PTTKeybind) (es : List KEvent),
        isAltFrom true (mgrRun kb initMgr es).2 = true)
    ∧ (∀ (kb : PTTKeybind) (s : MgrState) (e : KEvent),
        Emission.press ∈ (mgrStep kb s e).2 →
          s.ptt_state = PTTState.idle ∧ (mgrStep kb s e).1.ptt_state = PTTState.pressed)
    ∧ (∀ (kb : PTTKeybind) (s : MgrState) (e : KEvent),
        Emission.release ∈ (mgrStep kb s e).2 →
          s.ptt_state = PTTState.pressed ∧ (mgrStep kb s e).1.ptt_state = PTTState.idle)
    ∧ (∀ (rl : Bool) (es : List (Bool × Bool)),
        isAltFrom true (etRun rl initET es).2 = true)
    ∧ (∀ (rl : Bool) (s : ETState) (l r : Bool),
        Emission.press ∈ (etStep rl s l r).2 →
          s.active = false ∧ (etStep rl s l r).1.active = true)
    ∧ (∀ (rl : Bool) (s : ETState) (l r : Bool),
        Emission.release ∈ (etStep rl s l r).2 →
          s.active = true ∧ (etStep rl s l r).1.active = false) := by
  refine ⟨fun kb es => mgrRun_alt kb es initMgr, ?_, ?_, fun rl es => etRun_alt rl es initET, ?_, ?_⟩
  · intro kb s e h
    rcases mgrStep_cases kb s e with ⟨h1, _⟩ | ⟨_, h2, h3⟩ | ⟨h1, _, _⟩
    · rw [h1] at h
      simp at h
    · exact ⟨h2, h3⟩
    · rw [h1] at h
      simp at h
  · intro kb s e h
    rcases mgrStep_cases kb s e with ⟨h1, _⟩ | ⟨h1, _, _⟩ | ⟨_, h2, h3⟩
    · rw [h1] at h
      simp at h
    · rw [h1] at h
      simp at h
    · exact ⟨h2, h3⟩
  · intro rl s l r h
    rcases etStep_cases rl s l r with ⟨h1, _⟩ | ⟨_, h2, h3⟩ | ⟨h1, _, _⟩
    · rw [h1] at h
      simp at h
    · exact ⟨h2, h3⟩
    · rw [h1] at h
      simp at h
  · intro rl s l r h
    rcases etStep_cases rl s l r with ⟨h1, _⟩ | ⟨h1, _, _⟩ | ⟨_, h2, h3⟩
    · rw [h1] at h
      simp at h
    · rw [h1] at h
      simp at h
    · exact ⟨h2, h3⟩

/-- C4 witness: the press-only-on-Idle-to-Pressed conjunct applied at a
concrete input — the right shift going down while the left is held fires a
press from Idle into Pressed. -/
theorem claim4_press_release_alternation_witness :
    mgrLeftHeld.ptt_state = PTTState.idle
    ∧ (mgrStep kbBothShifts mgrLeftHeld (KEvent.down PKey.shift_r)).1.ptt_state
        = PTTState.pressed :=
  claim4_press_release_alternation.2.1 kbBothShifts mgrLeftHeld (KEvent.down PKey.shift_r)
    (by decide)

/-! ### Claim C9 -/

/-- C9: while the trigger is already Pressed, a duplicate key-down for an
already-tracked key produces no additional `onPress`: the keybind manager
emits nothing at all on any key-down in the Pressed state, and the
event-tap listener, on a transition that leaves the authoritative shift
state unchanged while active, emits no press (at most a release, when its
binding is not in force). -/
theorem claim9_duplicate_down_idempotent :
    (∀ (kb : PTTKeybind) (s : MgrState) (k : PKey),
        s.ptt_state = PTTState.pressed → k ∈ s.pressed_keys →
          (mgrStep kb s (KEvent.down k)).2 = [])
    ∧ (∀ (rl : Bool) (s : ETState),
        s.active = true →
          (etStep rl s s.shiftL s.shiftR).2 = []
          ∨ (etStep rl s s.shiftL s.shiftR).2 = [Emission.release]) := by
  constructor
  · intro kb s k hp _
    show (onPressM kb s k).2 = []
    unfold onPressM pressDecision
    simp [trackShiftDown_ptt, hp]
  · intro rl s ha
    rcases etStep_cases rl s s.shiftL s.shiftR with ⟨h1, _⟩ | ⟨_, h2, _⟩ | ⟨h1, _, _⟩
    · exact Or.inl h1
    · rw [ha] at h2
      cases h2
    · exact Or.inr h1

/-- C9 witness: the manager conjunct applied at a concrete input — a
duplicate left-shift key-down while both shifts are held and the trigger
is Pressed emits nothing. -/
theorem claim9_duplicate_down_idempotent_witness :
    (mgrStep kbBothShifts mgrBothHeld (KEvent.down PKey.shift_l)).2 = [] :=
  claim9_duplicate_down_idempotent.1 kbBothShifts mgrBothHeld PKey.shift_l rfl (by decide)

/-! ### Claim C3 -/

/-- C3: for every injector state, `stop()` (with its default
`invalidate_generation=True`) bumps the generation and leaves the queue
empty; and any item that was enqueued at the pre-stop generation, if
dequeued by the worker afterwards, is dropped by the generation check
before producing any OS-level injection (the effect list is empty and the
state unchanged). -/
theorem claim3_stop_cancels_pending :
    ∀ (s : InjectorState),
      (UnicodeInjector.stop s true).generation = s.generation + 1
      ∧ (UnicodeInjector.stop s true).queue = []
      ∧ (∀ (g : Nat) (t : String), (g, t) ∈ s.queue → g = s.generation →
          UnicodeInjector.workerProcessItem (UnicodeInjector.stop s true) (g, t)
            = (UnicodeInjector.stop s true, [])) := by
  intro s
  refine ⟨rfl, rfl, ?_⟩
  intro g t _ hg
  subst hg
  unfold UnicodeInjector.workerProcessItem
  rw [if_pos]
  exact Or.inl (show s.generation ≠ (UnicodeInjector.stop s true).generation by
    have h : (UnicodeInjector.stop s true).generation = s.generation + 1 := rfl
    rw [h]
    omega)

/-- C3 witness: applied to an injector with three pending items — after
`stop()` the queue is empty and the worker drops the first of the stale
items without any effect. -/
theorem claim3_stop_cancels_pending_witness :
    (UnicodeInjector.stop injThreePending true).queue = []
    ∧ UnicodeInjector.workerProcessItem (UnicodeInjector.stop injThreePending true) (5, "alpha")
        = (UnicodeInjector.stop injThreePending true, []) :=
  ⟨(claim3_stop_cancels_pending injThreePending).2.1,
   (claim3_stop_cancels_pending injThreePending).2.2 5 "alpha" (by decide) rfl⟩

/-! ### Claim C10 -/

/-- C10: `inject_text` with an empty string returns with the injector
state completely unchanged; and with the accept-gate closed, any call
enqueues nothing and leaves the queue, the generation counter and the gate
unchanged (and performs no OS side effect: `inject_text` only enqueues). -/
theorem claim10_inject_text_frame :
    ∀ (s : InjectorState) (t : String),
      UnicodeInjector.inject_text s "" = s
      ∧ (s.accept_new_work = false →
          (UnicodeInjector.inject_text s t).queue = s.queue
          ∧ (UnicodeInjector.inject_text s t).generation = s.generation
          ∧ (UnicodeInjector.inject_text s t).accept_new_work = false) := by
  intro s t
  constructor
  · rfl
  · intro h
    unfold UnicodeInjector.inject_text
    split_ifs <;> simp_all

/-- C10 witness: applied to a gate-closed injector and the text `"xyz"`. -/
theorem claim10_inject_text_frame_witness :
    UnicodeInjector.inject_text injGateClosed "" = injGateClosed
    ∧ (UnicodeInjector.inject_text injGateClosed "xyz").queue = injGateClosed.queue
    ∧ (UnicodeInjector.inject_text injGateClosed "xyz").generation = injGateClosed.generation
    ∧ (UnicodeInjector.inject_text injGateClosed "xyz").accept_new_work = false :=
  ⟨(claim10_inject_text_frame injGateClosed "xyz").1,
   (claim10_inject_text_frame injGateClosed "xyz").2 rfl⟩

/-! ### Helper lemmas: the transcript reducer -/

theorem strAppend_assoc : ∀ (a b c : String), (a ++ b) ++ c = a ++ (b ++ c)
| ⟨xs⟩, ⟨ys⟩, ⟨zs⟩ => congrArg String.mk (List.append_assoc xs ys zs)

theorem adoptTurn_suppress (s : TurnState) (e : TurnEvent) :
    (adoptTurn s e).suppress_output = s.suppress_output := by
  unfold adoptTurn
  cases e.turn_order with
  | none => rfl
  | some t =>
    dsimp only
    split_ifs <;> rfl

theorem adoptTurn_last (s : TurnState) (e : TurnEvent) :
    (adoptTurn s e).last_output_chunk = s.last_output_chunk := by
  unfold adoptTurn
  cases e.turn_order with
  | none => rfl
  | some t =>
    dsimp only
    split_ifs <;> rfl

theorem wordsPhase_suppress (cfg : ReducerConfig) (s : TurnState) (e : TurnEvent) :
    (wordsPhase cfg s e).1.suppress_output = s.suppress_output := by
  simp only [wordsPhase]
  split_ifs <;> rfl

theorem wordsPhase_committed_ge (cfg : ReducerConfig) (s : TurnState) (e : TurnEvent) :
    s.committed_word_count ≤ (wordsPhase cfg s e).1.committed_word_count := by
  simp only [wordsPhase]
  split_ifs <;> simp

theorem wordsPhase_out_last (cfg : ReducerConfig) (s : TurnState) (e : TurnEvent) (d : String) :
    (wordsPhase cfg s e).2 = [d] → (wordsPhase cfg s e).1.last_output_chunk = d := by
  simp only [wordsPhase]
  split_ifs <;> intro h <;> simp_all

theorem endPhase_skip (s : TurnState) (e : TurnEvent)
    (h : ¬(e.end_of_turn = true ∧ e.turn_is_formatted = false ∧ s.suppress_output = false)) :
    endPhase s e = (s, []) := by
  unfold endPhase
  rw [if_neg h]

theorem turnStep_final_reset (cfg : ReducerConfig) (s : TurnState) (e : TurnEvent)
    (h1 : e.end_of_turn = true) (h2 : e.turn_is_formatted = false)
    (h3 : s.suppress_output = false) :
    (turnStep cfg s e).1.committed_word_count = 0
    ∧ (turnStep cfg s e).1.current_turn_order = none
    ∧ (turnStep cfg s e).1.last_output_chunk = "" := by
  have hs : (wordsPhase cfg (adoptTurn s e) e).1.suppress_output = false := by
    rw [wordsPhase_suppress, adoptTurn_suppress]
    exact h3
  show ((endPhase (wordsPhase cfg (adoptTurn s e) e).1 e).1.committed_word_count = 0
    ∧ (endPhase (wordsPhase cfg (adoptTurn s e) e).1 e).1.current_turn_order = none
    ∧ (endPhase (wordsPhase cfg (adoptTurn s e) e).1 e).1.last_output_chunk = "")
  unfold endPhase
  rw [if_pos ⟨h1, h2, hs⟩]
  exact ⟨rfl, rfl, rfl⟩

theorem wordsPhase_dedup_suppresses (cfg : ReducerConfig) (s : TurnState) (e : TurnEvent)
    (d : String) (hd : computedDelta cfg s e = some d)
    (hdup : d = s.last_output_chunk ∨ endsWithStr s.session_text d = true) :
    (wordsPhase cfg s e).2 = [] ∧ (wordsPhase cfg s e).1.session_text = s.session_text := by
  simp only [computedDelta] at hd
  simp only [wordsPhase]
  split_ifs at hd ⊢ <;> simp_all [String.append_empty]
  all_goals rw [← hd, String.append_empty]

theorem buildRest_eq (cfg : ReducerConfig) :
    ∀ (rest : List String) (t prev : String),
      buildRest cfg prev (t :: rest) = specSep cfg prev t ++ specConcat cfg (t :: rest) := by
  intro rest
  induction rest with
  | nil =>
    intro t prev
    show specSep cfg prev t ++ t ++ "" = specSep cfg prev t ++ t
    rw [String.append_empty]
  | cons b r2 ih =>
    intro t prev
    calc buildRest cfg prev (t :: b :: r2)
        = specSep cfg prev t ++ t ++ buildRest cfg t (b :: r2) := rfl
      _ = specSep cfg prev t ++ t ++ (specSep cfg t b ++ specConcat cfg (b :: r2)) := by
            rw [ih b t]
      _ = specSep cfg prev t ++ specConcat cfg (t :: b :: r2) := by
            show _ = specSep cfg prev t ++ (t ++ specSep cfg t b ++ specConcat cfg (b :: r2))
            simp [strAppend_assoc]

theorem buildDelta_eq_spec (cfg : ReducerConfig) (session : String) :
    ∀ (toks : List String), buildDelta cfg session toks = specAmendedDelta cfg session toks := by
  intro toks
  cases toks with
  | nil => rfl
  | cons t rest =>
    cases rest with
    | nil =>
      show specLead cfg session [t] ++ t ++ "" = specLead cfg session [t] ++ specConcat cfg [t]
      rw [String.append_empty]
      rfl
    | cons b r2 =>
      calc buildDelta cfg session (t :: b :: r2)
          = specLead cfg session (t :: b :: r2) ++ t ++ buildRest cfg t (b :: r2) := rfl
        _ = specLead cfg session (t :: b :: r2) ++ t
              ++ (specSep cfg t b ++ specConcat cfg (b :: r2)) := by
            rw [buildRest_eq]
        _ = specAmendedDelta cfg session (t :: b :: r2) := by
            show _ = specLead cfg session (t :: b :: r2)
              ++ (t ++ specSep cfg t b ++ specConcat cfg (b :: r2))
            simp [strAppend_assoc]

/-! ### Claim C8 -/

/-- C8: on the suppress path, `stop_transcription` performs the injector
flush-and-clear (which closes the accept-gate, bumps the generation and
discards all pending output) immediately after setting the suppress flag
and before any audio or transport teardown, and the quiet-period wait is
absent from the teardown sequence entirely. -/
theorem claim8_suppress_skips_quiet_period :
    stopTranscriptionActions true
      = [TeardownAction.setSuppress true, TeardownAction.flushAndClear,
         TeardownAction.signalStopAudio, TeardownAction.joinAudioThread,
         TeardownAction.cleanupAudio, TeardownAction.sendTerminate,
         TeardownAction.closeTransport, TeardownAction.joinWsThread,
         TeardownAction.injectorStop, TeardownAction.resetCounters]
    ∧ (stopTranscriptionActions true).contains TeardownAction.quietWait = false
    ∧ (∀ inj : InjectorState,
        (UnicodeInjector.flush_and_clear inj).accept_new_work = false
        ∧ (UnicodeInjector.flush_and_clear inj).queue = []
        ∧ (UnicodeInjector.flush_and_clear inj).generation = inj.generation + 1) :=
  ⟨rfl, by decide, fun _ => ⟨rfl, rfl, rfl⟩⟩

/-! ### Claim C2 -/

/-- C2 (refuted, code bug): with word map `{"slash": "/"}` and phrase map
`{("forward","slash"): "/"}`, the newly final words `["forward","slash"]`
do not yield the phrase result `"/"`: the word-level replacement runs
first (main.py line 261), turning the committed tokens into
`["forward","/"]`, so the phrase key `("forward","slash")` can no longer
match (main.py line 273) and the emitted delta is `"forward /"`. -/
theorem claim2_phrase_replacement_preempted :
    scanWords c2cfg c2event.words = (["forward", "/"], 2)
    ∧ applyPhraseReplacements c2cfg ["forward", "/"] = ["forward", "/"]
    ∧ (turnStep c2cfg initTurn c2event).2 = ["forward /"] := by
  decide

/-! ### Claim C5 -/

/-- C5: `committed_word_count` is monotone non-decreasing across any event
that neither carries a new turn order nor finalizes the turn; an event
carrying a different turn order resets it to zero at adoption time (and
adopts the new order); an unformatted end-of-turn event resets it to zero
and clears the tracked order; consequently the first event of a new turn
after an end-of-turn begins its word scan with the count at zero. -/
theorem claim5_committed_count_monotone_reset :
    (∀ (cfg : ReducerConfig) (s : TurnState) (e : TurnEvent),
        (e.turn_order = none ∨ e.turn_order = s.current_turn_order) →
        ¬(e.end_of_turn = true ∧ e.turn_is_formatted = false ∧ s.suppress_output = false) →
        s.committed_word_count ≤ (turnStep cfg s e).1.committed_word_count)
    ∧ (∀ (s : TurnState) (e : TurnEvent) (t : Nat),
        e.turn_order = some t → s.current_turn_order ≠ some t →
        (adoptTurn s e).committed_word_count = 0
        ∧ (adoptTurn s e).current_turn_order = some t)
    ∧ (∀ (cfg : ReducerConfig) (s : TurnState) (e : TurnEvent),
        e.end_of_turn = true → e.turn_is_formatted = false → s.suppress_output = false →
        (turnStep cfg s e).1.committed_word_count = 0
        ∧ (turnStep cfg s e).1.current_turn_order = none)
    ∧ (∀ (cfg : ReducerConfig) (s : TurnState) (e1 e2 : TurnEvent) (t : Nat),
        e1.end_of_turn = true → e1.turn_is_formatted = false → s.suppress_output = false →
        e2.turn_order = some t →
        (adoptTurn (turnStep cfg s e1).1 e2).committed_word_count = 0) := by
  refine ⟨?_, ?_, ?_, ?_⟩
  · intro cfg s e hturn hnf
    have hadopt : adoptTurn s e = s := by
      unfold adoptTurn
      rcases hturn with h | h
      · rw [h]
      · cases hto : e.turn_order with
        | none => rfl
        | some t =>
          rw [hto] at h
          dsimp only
          rw [if_neg (not_not_intro h)]
    show s.committed_word_count
      ≤ (endPhase (wordsPhase cfg (adoptTurn s e) e).1 e).1.committed_word_count
    rw [hadopt]
    have hend : endPhase (wordsPhase cfg s e).1 e = ((wordsPhase cfg s e).1, []) := by
      refine endPhase_skip _ _ ?_
      rw [wordsPhase_suppress]
      exact hnf
    rw [hend]
    exact wordsPhase_committed_ge cfg s e
  · intro s e t h1 h2
    unfold adoptTurn
    rw [h1]
    dsimp only
    rw [if_pos (Ne.symm h2)]
    exact ⟨rfl, rfl⟩
  · intro cfg s e h1 h2 h3
    have h := turnStep_final_reset cfg s e h1 h2 h3
    exact ⟨h.1, h.2.1⟩
  · intro cfg s e1 e2 t h1 h2 h3 h4
    have h := turnStep_final_reset cfg s e1 h1 h2 h3
    unfold adoptTurn
    rw [h4]
    dsimp only
    rw [if_pos (by rw [h.2.1]; exact Option.some_ne_none t)]

/-- C5 witness: the monotonicity conjunct applied at a fresh state and a
non-final event, and the finalize-reset conjunct applied at a fresh state
and an unformatted end-of-turn event. -/
theorem claim5_committed_count_monotone_reset_witness :
    initTurn.committed_word_count
      ≤ (turnStep emptyCfg initTurn c5event).1.committed_word_count
    ∧ (turnStep emptyCfg initTurn c7event).1.committed_word_count = 0 :=
  ⟨claim5_committed_count_monotone_reset.1 emptyCfg initTurn c5event (Or.inl rfl) (by decide),
   (claim5_committed_count_monotone_reset.2.2.1 emptyCfg initTurn c7event rfl rfl rfl).1⟩

/-! ### Claim C6 -/

/-- C6 counterexample: the unamended claim says a leading space is
prepended only when the session text does not already end in *whitespace*;
but for a session text ending in a tab — whitespace, yet neither the space
character the code tests for (main.py line 280) nor a joiner — the code
still prepends the leading space: the delta for token `["b"]` after
session text `"a\t"` is `" b"`. -/
theorem claim6_counterexample :
    buildDelta c6cfg "a\t" ["b"] = " b"
    ∧ endsInWhitespace "a\t" = true
    ∧ endsWithAny "a\t" c6cfg.joiner_values = false := by
  decide

/-- C6 (amended: the leading-space test is against a trailing *space
character*, not arbitrary whitespace): the delta construction omits the
separating space on either side of a joiner token, inserts exactly one
space between two adjacent non-joiner tokens, and prepends a leading space
exactly when the first token is not a joiner and the session text is
non-empty and ends neither in a space character nor in a joiner token — it
coincides with the spec-modelled `specAmendedDelta` on all inputs; in
particular `["open","/","close"]` with `/` a joiner yields
`"open/close"`. -/
theorem claim6_joiner_spacing :
    (∀ (cfg : ReducerConfig) (session : String) (toks : List String),
        buildDelta cfg session toks = specAmendedDelta cfg session toks)
    ∧ buildDelta c6cfg "" ["open", "/", "close"] = "open/close" :=
  ⟨fun cfg session toks => buildDelta_eq_spec cfg session toks, by decide⟩

/-! ### Claim C7 -/

/-- C7 counterexample: the unamended claim says two consecutive events
producing the identical delta string yield exactly one emitted delta; but
when the first event finalizes the turn, `last_output_chunk` is reset and
a trailing space is appended (main.py lines 297-308), so a retransmission
of the same final event recomputes the identical delta `"hello"` and it is
emitted a second time: both steps inject `"hello"`. -/
theorem claim7_counterexample :
    (turnStep emptyCfg initTurn c7event).2 = ["hello", " "]
    ∧ (turnStep emptyCfg (turnStep emptyCfg initTurn c7event).1 c7event).2 = ["hello", " "]
    ∧ computedDelta emptyCfg (adoptTurn initTurn c7event) c7event = some "hello"
    ∧ computedDelta emptyCfg
        (adoptTurn (turnStep emptyCfg initTurn c7event).1 c7event) c7event = some "hello" := by
  decide

/-- C7 (amended: the single-emission consequence holds provided the first
event does not finalize the turn): whenever the computed delta equals
`last_output_chunk` or the session text already ends with it, emission is
suppressed — nothing is handed to the injector and the session text is
unchanged; and if an event whose processing does not close out the turn
emits a delta `d`, a following event whose computed delta is again `d` has
its emission suppressed, so the two consecutive events yield exactly one
emitted delta. -/
theorem claim7_delta_dedup :
    (∀ (cfg : ReducerConfig) (s : TurnState) (e : TurnEvent) (d : String),
        computedDelta cfg s e = some d →
        (d = s.last_output_chunk ∨ endsWithStr s.session_text d = true) →
        (wordsPhase cfg s e).2 = [] ∧ (wordsPhase cfg s e).1.session_text = s.session_text)
    ∧ (∀ (cfg : ReducerConfig) (s : TurnState) (e1 e2 : TurnEvent) (d : String),
        ¬(e1.end_of_turn = true ∧ e1.turn_is_formatted = false ∧ s.suppress_output = false) →
        (turnStep cfg s e1).2 = [d] →
        computedDelta cfg (adoptTurn (turnStep cfg s e1).1 e2) e2 = some d →
        (wordsPhase cfg (adoptTurn (turnStep cfg s e1).1 e2) e2).2 = []) := by
  refine ⟨fun cfg s e d hd hdup => wordsPhase_dedup_suppresses cfg s e d hd hdup, ?_⟩
  intro cfg s e1 e2 d hnf hout hd
  have hend : endPhase (wordsPhase cfg (adoptTurn s e1) e1).1 e1
      = ((wordsPhase cfg (adoptTurn s e1) e1).1, []) := by
    refine endPhase_skip _ _ ?_
    rw [wordsPhase_suppress, adoptTurn_suppress]
    exact hnf
  have hstep2 : (turnStep cfg s e1).2 = (wordsPhase cfg (adoptTurn s e1) e1).2 := by
    show ((wordsPhase cfg (adoptTurn s e1) e1).2
      ++ (endPhase (wordsPhase cfg (adoptTurn s e1) e1).1 e1).2) = _
    rw [hend]
    exact List.append_nil _
  have hstate : (turnStep cfg s e1).1 = (wordsPhase cfg (adoptTurn s e1) e1).1 := by
    show (endPhase (wordsPhase cfg (adoptTurn s e1) e1).1 e1).1 = _
    rw [hend]
  rw [hstep2] at hout
  have hlast : (adoptTurn (turnStep cfg s e1).1 e2).last_output_chunk = d := by
    rw [adoptTurn_last, hstate]
    exact wordsPhase_out_last cfg (adoptTurn s e1) e1 d hout
  exact (wordsPhase_dedup_suppresses cfg _ e2 d hd (Or.inl hlast.symm)).1

/-- C7 witness: the suppression conjunct applied at a concrete input — a
retransmitted `"hello"` update whose computed delta equals the last
emitted chunk emits nothing and leaves the session text unchanged. -/
theorem claim7_delta_dedup_witness :
    (wordsPhase emptyCfg c7state c7eventB).2 = []
    ∧ (wordsPhase emptyCfg c7state c7eventB).1.session_text = c7state.session_text :=
  claim7_delta_dedup.1 emptyCfg c7state c7eventB "hello" (by decide) (Or.inl rfl)

end PushToType
